import Mathlib

/-!
Verification of the image extraction-and-inlining pipeline of the
`skipor/imgserver` repository (package `imgserver`, file `imgparse.go`,
current variant: lines 273-691).

The Go code is shallowly embedded: pure functions become Lean functions,
goroutine/channel behaviour becomes explicit event traces (the sequence of
values delivered by the `select` statements), and Go run-time panics are a
distinguished result constructor.  Machine integers stay `Nat`/`Int`
(no overflow is reachable: the counters only grow by 1 per list element).
-/

/-! ## Go string helpers (models of the `strings` package functions used) -/

/-- `strings.HasPrefix s p` (byte-wise prefix test). -/
def strStartsWith (s p : String) : Bool :=
  p.data.isPrefixOf s.data

/-- One step of `strings.Trim`-style trimming: drop every leading `c`. -/
def trimCharLeft (c : Char) (l : List Char) : List Char :=
  l.dropWhile (· == c)

/-- Drop every trailing `c`. -/
def trimCharRight (c : Char) (l : List Char) : List Char :=
  (l.reverse.dropWhile (· == c)).reverse

/-- `strings.Trim s (cutset containing only c)`: drop all leading and trailing `c`. -/
def goTrim (s : String) (c : Char) : String :=
  ⟨trimCharRight c (trimCharLeft c s.data)⟩

/-- `strings.TrimRight s (cutset containing only c)`. -/
def goTrimRight (s : String) (c : Char) : String :=
  ⟨trimCharRight c s.data⟩

/-- The ASCII white-space characters recognised by `strings.TrimSpace`
(the pipeline only ever trims ASCII header values). -/
def isGoSpace (c : Char) : Bool :=
  c == ' ' || c == '\t' || c == '\n' || c == '\r'

/-- `strings.TrimSpace` restricted to ASCII white space. -/
def goTrimSpace (s : String) : String :=
  ⟨((s.data.dropWhile isGoSpace).reverse.dropWhile isGoSpace).reverse⟩

/-- `strings.Split l (single separator char c)`: split at every `c`,
keeping empty fields, `[""]` on empty input. -/
def splitChar (c : Char) : List Char → List (List Char)
  | [] => [[]]
  | x :: xs =>
    let r := splitChar c xs
    if x == c then [] :: r
    else
      match r with
      | [] => [[x]]
      | h :: t => (x :: h) :: t

/-- Split a list at the first occurrence of `c`.  With `cutc = true` the
separator is dropped from the second component, otherwise it is kept there
(the two behaviours of `net/url`'s internal `split`).  When `c` does not
occur the second component is empty. -/
def splitFirst (c : Char) (cutc : Bool) : List Char → List Char × List Char
  | [] => ([], [])
  | x :: xs =>
    if x == c then ([], if cutc then xs else x :: xs)
    else
      let p := splitFirst c cutc xs
      (x :: p.1, p.2)

/-! ## URL model (`net/url` as used by the repository) -/

/-- The fields of Go's `url.URL` that the code under verification reads or
writes.  `Opaque`, `User`, `RawPath` and port/userinfo validation are not
modelled: the functions verified here never read them (for an opaque URL the
opaque part is stored in `path`, which the code never inspects in that case). -/
structure GoURL where
  scheme : String
  host : String
  path : String
  rawQuery : String
  fragment : String
deriving Repr, DecidableEq

/-- `url.URL.IsAbs`. -/
def GoURL.isAbs (u : GoURL) : Bool :=
  u.scheme ≠ ""

/-- Model of `url.URL.String` (Go 1.6) restricted to the `GoURL` fields;
path escaping is the identity on the character sets appearing here. -/
def urlString (u : GoURL) : String :=
  (if u.scheme ≠ "" then u.scheme ++ ":" else "") ++
  (if u.scheme ≠ "" ∨ u.host ≠ "" then "//" ++ u.host else "") ++
  (if u.path ≠ "" ∧ strStartsWith u.path "/" = false ∧ u.host ≠ "" then "/" else "") ++
  u.path ++
  (if u.rawQuery ≠ "" then "?" ++ u.rawQuery else "") ++
  (if u.fragment ≠ "" then "#" ++ u.fragment else "")

/-- Character classes of `net/url.getscheme`. -/
def schemeCharOk (c : Char) : Bool :=
  c.isAlpha || c.isDigit || c == '+' || c == '-' || c == '.'

/-- Scan for `scheme:`: accumulator holds the candidate scheme reversed. -/
def getschemeAux (acc : List Char) : List Char → Option (List Char × List Char)
  | [] => none
  | c :: cs =>
    if c == ':' then some (acc.reverse, cs)
    else if schemeCharOk c then getschemeAux (c :: acc) cs
    else none

/-- Model of `net/url.getscheme`: returns `(scheme, rest)` with `scheme = ""`
when the input has no scheme; errors on a leading `:`. -/
def getscheme (s : String) : Except String (String × String) :=
  match s.data with
  | [] => .ok ("", "")
  | c :: cs =>
    if c == ':' then .error "missing protocol scheme"
    else if c.isAlpha then
      match getschemeAux [c] cs with
      | some (sch, rest) => .ok (⟨sch⟩, ⟨rest⟩)
      | none => .ok ("", s)
    else .ok ("", s)

/-- Model of `net/url.Parse` (Go 1.6) for references without percent-escapes,
userinfo or ports: fragment split at the first `#`, then scheme extraction,
query split at the first `?`, then either the opaque form, an authority
(`//host/path`) form, or a bare path.  Escape validation is not modelled (the
code under verification only consumes `IsAbs`, i.e. the scheme, and for
folder URLs host and path, on escape-free inputs). -/
def urlParse (s : String) : Except String GoURL :=
  let fragSplit := splitFirst '#' true s.data
  match getscheme ⟨fragSplit.1⟩ with
  | .error e => .error e
  | .ok (scheme, rest0) =>
    let querySplit := splitFirst '?' true rest0.data
    let rest1 : String := ⟨querySplit.1⟩
    if scheme ≠ "" ∧ strStartsWith rest1 "/" = false then
      .ok ⟨scheme, "", rest1, ⟨querySplit.2⟩, ⟨fragSplit.2⟩⟩
    else if strStartsWith rest1 "//" = true ∧ strStartsWith rest1 "///" = false then
      let authSplit := splitFirst '/' false (rest1.data.drop 2)
      .ok ⟨scheme, ⟨authSplit.1⟩, ⟨authSplit.2⟩, ⟨querySplit.2⟩, ⟨fragSplit.2⟩⟩
    else
      .ok ⟨scheme, "", rest1, ⟨querySplit.2⟩, ⟨fragSplit.2⟩⟩

/-- Model of `govalidator.IsURL` (external dependency, 2016 era): size and
shape preconditions followed by the URL regular expression, here approximated
by: the string parses, its host does not start with a dot, a host-less value
needs a dot in its path, and no white space occurs.  Every concrete string
this development evaluates it on is classified exactly as the original. -/
def govalidatorIsURL (s : String) : Bool :=
  if s = "" then false
  else if 2083 ≤ s.data.length then false
  else if s.data.length ≤ 3 then false
  else if strStartsWith s "." then false
  else
    match urlParse s with
    | .error _ => false
    | .ok u =>
      if strStartsWith u.host "." then false
      else if u.host = "" ∧ u.path ≠ "" ∧ u.path.data.contains '.' = false then false
      else if s.data.any isGoSpace then false
      else true

/-- Equality on `Except` results is decidable (used to evaluate embedded
functions on concrete inputs). -/
instance {ε α : Type} [DecidableEq ε] [DecidableEq α] : DecidableEq (Except ε α)
  | .error e, .error e' => decidable_of_iff (e = e') (by simp)
  | .ok a, .ok a' => decidable_of_iff (a = a') (by simp)
  | .error _, .ok _ => isFalse (by simp)
  | .ok _, .error _ => isFalse (by simp)

/-! ## Error model -/

/-- A Go `error` value as produced by this package: either a generic error
(transport failure, cancellation, tokenizer error, copy error — only its
message is relevant) or a `*HandlerError` with status code, description and
optional wrapped cause. -/
inductive GoErr where
  | plain (msg : String)
  | handler (statusCode : Nat) (description : String) (cause : Option GoErr)
deriving Repr

/-- Boolean equality on `GoErr` (the automatic derivation does not handle
the nested `Option`). -/
def GoErr.beq : GoErr → GoErr → Bool
  | .plain a, .plain b => a == b
  | .handler n d none, .handler n' d' none => n == n' && d == d'
  | .handler n d (some x), .handler n' d' (some y) => n == n' && d == d' && GoErr.beq x y
  | _, _ => false

theorem GoErr.beq_iff : ∀ a b : GoErr, GoErr.beq a b = true ↔ a = b
  | .plain a, .plain b => by simp [GoErr.beq]
  | .plain _, .handler .. => by simp [GoErr.beq]
  | .handler .., .plain _ => by simp [GoErr.beq]
  | .handler n d none, .handler n' d' none => by simp [GoErr.beq]
  | .handler n d none, .handler n' d' (some y) => by simp [GoErr.beq]
  | .handler n d (some x), .handler n' d' none => by simp [GoErr.beq]
  | .handler n d (some x), .handler n' d' (some y) => by
      simp [GoErr.beq, GoErr.beq_iff x y, and_assoc]

instance : DecidableEq GoErr :=
  fun a b => decidable_of_iff (GoErr.beq a b = true) (GoErr.beq_iff a b)

/-- The error `parseImgToken` constructs for an image element with no
source attribute (`NewHandlerError(400, ...)`). -/
def noSrcErr : GoErr :=
  .handler 400 "no src attribute for <img/> tag" none

/-! ## The image-tag model (`imgTag`, imgparse.go lines 295-326) -/

/-- `html.Attribute` restricted to the fields the package reads
(`Namespace` is never consulted). -/
structure HTMLAttr where
  key : String
  val : String
deriving Repr, DecidableEq

/-- `imgTag`: the retained attribute list together with the cached index of
the `src` attribute (`-1` during construction, before a `src` is seen). -/
structure imgTag where
  srcIndex : Int
  attr : List HTMLAttr
deriving Repr, DecidableEq

/-- `img.src()`: reads `attr[srcIndex].Val`.  Go would panic on an
out-of-range index; every tag built by `parseImgToken` has a valid index,
and the theorems below only read `src` through such tags, so the default
value is unreachable there. -/
def imgTag.src (img : imgTag) : String :=
  ((img.attr.get? img.srcIndex.toNat).getD ⟨"", ""⟩).val

/-- `img.isDataURL()`. -/
def imgTag.isDataURL (img : imgTag) : Bool :=
  strStartsWith img.src "data:"

/-- Replace the `val` of the element at position `n` (in-range positions
only; out of range leaves the list unchanged, where Go would panic). -/
def setVal : List HTMLAttr → Nat → String → List HTMLAttr
  | [], _, _ => []
  | a :: as, 0, v => ⟨a.key, v⟩ :: as
  | a :: as, n + 1, v => a :: setVal as n v

/-- `img.setSrc(s)` applied to a fresh copy of the tag (the fetchers copy
the attribute slice before calling `setSrc`; the functional model makes the
copy implicit). -/
def imgTag.setSrc (img : imgTag) (s : String) : imgTag :=
  ⟨img.srcIndex, setVal img.attr img.srcIndex.toNat s⟩

/-- `supportedImgAttributes` (imgparse.go lines 310-317), as a predicate. -/
def supportedImgAttributes (key : String) : Bool :=
  key == "src" || key == "alt" || key == "style" || key == "longdesc" ||
  key == "width" || key == "height"

/-! ## `parseImgToken` (imgparse.go lines 633-648, current variant) -/

/-- The loop of `parseImgToken`: walk the token's attributes, retain the
supported ones, and when the key is `src` cache the length of the retained
list so far (the position the attribute is about to occupy there). -/
def parseImgTokenLoop : List HTMLAttr → Int → List HTMLAttr → Int × List HTMLAttr
  | [], si, acc => (si, acc)
  | a :: rest, si, acc =>
    if supportedImgAttributes a.key then
      parseImgTokenLoop rest (if a.key == "src" then Int.ofNat acc.length else si) (acc ++ [a])
    else
      parseImgTokenLoop rest si acc

/-- `parseImgToken`.  Only the token's attribute list is consumed here; the
caller (`parseImage`) has already checked the token type, atom and tag name. -/
def parseImgToken (tokenAttr : List HTMLAttr) : Except GoErr imgTag :=
  let r := parseImgTokenLoop tokenAttr (-1) []
  if r.1 < 0 then .error noSrcErr
  else .ok ⟨r.1, r.2⟩

/-! ## `getFolderURL` (imgparse.go lines 650-661, current variant) -/

/-- `getFolderURL`: clear query and fragment, trim `/` from both ends of the
path, then drop the last `/`-separated segment (or the whole path when no
separator remains). -/
def getFolderURL (pageURL : GoURL) : GoURL :=
  let u : GoURL := { pageURL with fragment := "", rawQuery := "" }
  let p : String := goTrim u.path '/'
  if p.data.contains '/' = false then { u with path := "" }
  else { u with path := ⟨List.intercalate ['/'] ((splitChar '/' p.data).dropLast)⟩ }

/-! ## `getImgURL` (imgparse.go lines 663-691, current variant) -/

/-- Outcome of a Go function call that may panic: a returned string, a
returned error, or a run-time panic. -/
inductive GoRes where
  | ok (s : String)
  | err (e : GoErr)
  | panicked
deriving Repr, DecidableEq

/-- The final validation of `getImgURL`: every branch funnels its candidate
result through `govalidator.IsURL` (the wrapped cause there is the `err`
variable, which is `nil` at that point). -/
def checkValid (r : String) : GoRes :=
  if govalidatorIsURL r then .ok r
  else .err (.handler 400 "invalid img tag src URL: is not valid URL" none)

/-- `getImgURL src folderURL`.  `GoRes.panicked` marks the two places where
the Go code indexes a string that may be empty (`src[0]`, and
`folderStr[len(folderStr)-1]`). -/
def getImgURL (src : String) (folderURL : GoURL) : GoRes :=
  match urlParse src with
  | .error cause => .err (.handler 400 "invalid img tag src URL: url parse" (some (.plain cause)))
  | .ok imgSrcURL =>
    if imgSrcURL.isAbs then checkValid src
    else if strStartsWith src "//" then checkValid ("http:" ++ src)
    else
      match src.data with
      | [] => .panicked
      | c :: _ =>
        if c == '/' then checkValid (urlString { folderURL with path := src })
        else
          let folderStr := goTrimRight (urlString folderURL) '/'
          match folderStr.data.getLast? with
          | none => .panicked
          | some lastc =>
            if lastc == '/' then checkValid (folderStr ++ src)
            else checkValid (folderStr ++ "/" ++ src)

/-! ## `parseImage` (imgparse.go lines 584-622, current variant)

The scanner goroutine is embedded as a function from the tokenizer's output
stream to the sequence of channel events it produces, in order: zero or more
tags sent on the image channel, then optionally one value sent on the error
channel, then the close of the image channel (`close(imgc)` runs in a `defer`,
so it always comes last). -/

/-- One output of `html.Tokenizer.Next/Token` as consumed by the scanner:
a start tag, a self-closing tag, any other token kind (skipped without
inspection), or the terminal `ErrorToken` (end of input when `z.Err()` is
`io.EOF`, a scan error otherwise). -/
inductive HTMLTok where
  | startTag (isImgAtom : Bool) (dat : String) (attrs : List HTMLAttr)
  | selfClosingTag (isImgAtom : Bool) (dat : String) (attrs : List HTMLAttr)
  | otherTok
  | eofTok
  | scanErr (msg : String)
deriving Repr, DecidableEq

/-- An event observable on the scanner's two channels.  `err none` models a
`nil` error value sent on an error channel. -/
inductive ChanMsg where
  | img (t : imgTag)
  | err (e : Option GoErr)
  | closed
deriving Repr, DecidableEq

/-- The channel events produced by the `parseImage` goroutine on a tokenizer
stream.  `none` marks an ill-formed stream that does not end with an
`ErrorToken` (a real tokenizer always produces one). -/
def parseImageRun : List HTMLTok → Option (List ChanMsg)
  | [] => none
  | .eofTok :: _ => some [.closed]
  | .scanErr m :: _ => some [.err (some (.plain m)), .closed]
  | .otherTok :: rest => parseImageRun rest
  | .startTag isImg dat attrs :: rest =>
    if isImg = true ∧ dat = "img" then
      match parseImgToken attrs with
      | .error e => some [.err (some e), .closed]
      | .ok t => (parseImageRun rest).map (fun ms => .img t :: ms)
    else parseImageRun rest
  | .selfClosingTag isImg dat attrs :: rest =>
    if isImg = true ∧ dat = "img" then
      match parseImgToken attrs with
      | .error e => some [.err (some e), .closed]
      | .ok t => (parseImageRun rest).map (fun ms => .img t :: ms)
    else parseImageRun rest

/-- The tags produced by a clean stream prefix: one in which every image
token parses and no `ErrorToken` occurs.  `none` when the prefix is not
clean.  Used only to state theorems about `parseImageRun`. -/
def scanOk : List HTMLTok → Option (List imgTag)
  | [] => some []
  | .eofTok :: _ => none
  | .scanErr _ :: _ => none
  | .otherTok :: rest => scanOk rest
  | .startTag isImg dat attrs :: rest =>
    if isImg = true ∧ dat = "img" then
      match parseImgToken attrs with
      | .error _ => none
      | .ok t => (scanOk rest).map (fun ts => t :: ts)
    else scanOk rest
  | .selfClosingTag isImg dat attrs :: rest =>
    if isImg = true ∧ dat = "img" then
      match parseImgToken attrs with
      | .error _ => none
      | .ok t => (scanOk rest).map (fun ts => t :: ts)
    else scanOk rest

/-! ## `extractImages` (imgparse.go lines 345-422, current variant)

The coordinator's `select` loop is embedded as a transition function over the
trace of events delivered to it, together with instrumentation counters:
`d` counts dispatched fetch tasks, `c` counts fetch completions received.
A trace step that no reachable `select` could deliver (an event on a channel
that is `nil`, or a fetch completion with no outstanding fetch worker)
makes the run invalid (`none`). -/

/-- One event delivered to the coordinator's `select`. -/
inductive CoordEv where
  | img (t : imgTag)
  | parseClosed
  | parseErr (e : Option GoErr)
  | fetchRes (t : imgTag)
  | fetchErr (e : Option GoErr)
deriving Repr, DecidableEq

/-- How the coordinator's loop ended: normal exit with the accumulated
result; an early `return nil, err` (scan error, URL-resolution error or fetch
error) with the value of `await` at that moment; or a panic propagating out
of the loop body (still running the deferred drain).  -/
inductive LoopExit where
  | ok (result : List imgTag)
  | fail (e : Option GoErr) (awaitExit : Nat)
  | panicked (awaitExit : Nat)
deriving Repr, DecidableEq

/-- The coordinator loop.  Arguments: folder URL, `parseResChan ≠ nil`,
`await`, `result`, dispatch count, completion count, remaining events.
Returns the exit, the final counts, and the unconsumed events. -/
def coordLoop : GoURL → Bool → Nat → List imgTag → Nat → Nat → List CoordEv →
    Option (LoopExit × Nat × Nat × List CoordEv)
  | _, false, 0, result, d, c, evs => some (.ok result, d, c, evs)
  | _, _, _, _, _, _, [] => none
  | f, po, aw, res, d, c, .img t :: rest =>
    if po then
      if t.isDataURL then coordLoop f po aw (res ++ [t]) d c rest
      else
        match getImgURL t.src f with
        | .ok _ => coordLoop f po (aw + 1) res (d + 1) c rest
        | .err e => some (.fail (some e) aw, d, c, rest)
        | .panicked => some (.panicked aw, d, c, rest)
    else none
  | f, po, aw, res, d, c, .parseClosed :: rest =>
    if po then coordLoop f false aw res d c rest else none
  | _, po, aw, _, d, c, .parseErr e :: rest =>
    if po then some (.fail e aw, d, c, rest) else none
  | f, po, aw, res, d, c, .fetchRes t :: rest =>
    match aw with
    | 0 => none
    | n + 1 => coordLoop f po n (res ++ [t]) d (c + 1) rest
  | _, _, aw, _, d, c, .fetchErr e :: rest =>
    match aw with
    | 0 => none
    | n + 1 => some (.fail e n, d, c + 1, rest)

/-- The deferred drain: `for ; await > 0; await--` receiving from the two
fetch channels only.  Returns the unconsumed events; `none` when the trace
cannot supply the required completions. -/
def drainLoop : Nat → List CoordEv → Option (List CoordEv)
  | 0, evs => some evs
  | n + 1, .fetchRes _ :: rest => drainLoop n rest
  | n + 1, .fetchErr _ :: rest => drainLoop n rest
  | _ + 1, _ => none

/-- How a whole `extractImages` call ended. -/
inductive RunOutcome where
  | ok (result : List imgTag)
  | fail (e : Option GoErr)
  | panicked
deriving Repr, DecidableEq

/-- Observations of one `extractImages` run: the outcome, whether the
deferred function ran `cancel()` (it always does), `await` at loop exit, the
number of events the drain consumed, the dispatch/completion counters
(completions include the drained ones) and the unconsumed trace. -/
structure RunOut where
  outcome : RunOutcome
  cancelled : Bool
  awaitAtExit : Nat
  drained : Nat
  dispatched : Nat
  completed : Nat
  rest : List CoordEv
deriving Repr, DecidableEq

/-- A full `extractImages` run over an event trace: the loop, then the
deferred `cancel()` and drain. -/
def extractImagesRun (folderURL : GoURL) (evs : List CoordEv) : Option RunOut :=
  match coordLoop folderURL true 0 [] 0 0 evs with
  | none => none
  | some (.ok res, d, c, rest) => some ⟨.ok res, true, 0, 0, d, c, rest⟩
  | some (.fail e aw, d, c, rest) =>
    match drainLoop aw rest with
    | none => none
    | some rest2 =>
      some ⟨.fail e, true, aw, rest.length - rest2.length, d, c + (rest.length - rest2.length), rest2⟩
  | some (.panicked aw, d, c, rest) =>
    match drainLoop aw rest with
    | none => none
    | some rest2 =>
      some ⟨.panicked, true, aw, rest.length - rest2.length, d, c + (rest.length - rest2.length), rest2⟩

/-! ## The fetchers (imgparse.go lines 436-476 and 478-564)

Each fetch goroutine is embedded as the list of values it sends on its two
channels, as a function of its environment: the outcome of each
`cxtAwareGet` call (a transport/cancellation error, or a response with
status, Content-Type header and body-transfer outcome). -/

/-- An HTTP response as consumed by the fetchers: status code, the value of
`Header.Get("Content-Type")` (`""` when the header is absent), and the bytes
delivered by `io.Copy` or the error that interrupted the transfer. -/
structure HTTPResp where
  statusCode : Nat
  contentType : String
  body : Except String (List Nat)
deriving Repr, DecidableEq

/-- Outcome of one `cxtAwareGet`: a generic error (covering transport
failure and cancellation, whose cause the error carries) or a response. -/
abbrev FetchEnv : Type := Except String HTTPResp

/-- A value sent by a fetch goroutine: a tag on the result channel or an
error value (possibly `nil`) on the error channel. -/
inductive FetchSend where
  | img (t : imgTag)
  | err (e : Option GoErr)
deriving Repr, DecidableEq

/-- The standard base64 alphabet. -/
def base64Chars : List Char :=
  "ABCDEFGHIJKLMNOPQRSTUVWXYZabcdefghijklmnopqrstuvwxyz0123456789+/".data

/-- Digit lookup for `base64Encode`. -/
def b64char (n : Nat) : Char :=
  base64Chars.getD n 'A'

/-- `encoding/base64` StdEncoding of a byte list (values 0-255), with
padding: the complete encoding an encoder has emitted once `Close` has
flushed its final block. -/
def base64Encode : List Nat → List Char
  | [] => []
  | [b1] => [b64char (b1 / 4), b64char (b1 % 4 * 16), '=', '=']
  | [b1, b2] => [b64char (b1 / 4), b64char (b1 % 4 * 16 + b2 / 16), b64char (b2 % 16 * 4), '=']
  | b1 :: b2 :: b3 :: rest =>
    b64char (b1 / 4) :: b64char (b1 % 4 * 16 + b2 / 16) ::
    b64char (b2 % 16 * 4 + b3 / 64) :: b64char (b3 % 64) :: base64Encode rest

/-- String form of `base64Encode`. -/
def base64EncodeStr (bs : List Nat) : String :=
  ⟨base64Encode bs⟩

/-- The data-URL value both fetchers read out of `dataURLBuf`.  The buffer
is read by `dataURLBuf.String()` before the deferred `w.Close()` of the
base64 encoder runs, so only the complete three-byte blocks that `io.Copy`
pushed through the encoder are present in it; the final partial block and
its padding are flushed by `Close` only after the value has been built (and
sent), so they never reach the string.  Hence the payload is the standard
encoding of the longest multiple-of-three prefix of the body. -/
def dataURLOf (ct : String) (bytes : List Nat) : String :=
  "data:" ++ ct ++ ";base64," ++ base64EncodeStr (bytes.take (bytes.length / 3 * 3))

/-- Shallow embedding of `fetchImage` (imgparse.go lines 436-476): the
values the goroutine sends, given the GET outcome `env`.  Every `return`
path of the source sends exactly one value first; the translation mirrors
each branch in order. -/
def fetchImageSends (env : FetchEnv) (img : imgTag) (imgURL : String) : List FetchSend :=
  match env with
  | .error cause =>
    [.err (some (.handler 500 ("can't fetch image: " ++ imgURL) (some (.plain cause))))]
  | .ok resp =>
    if resp.statusCode ≠ 200 then
      [.err (some (.handler 400
        ("expected status code 200 but found " ++ toString resp.statusCode ++
          " on image: " ++ imgURL ++ " )") none))]
    else
      let ct := goTrimSpace resp.contentType
      if ct = "" then [.err (some (.handler 400 ("no content-type on image: " ++ imgURL) none))]
      else if strStartsWith ct "image" = false then
        [.err (some (.handler 400 ("not image content-type on image: " ++ imgURL) none))]
      else
        match resp.body with
        | .error cause =>
          [.err (some (.handler 400 ("image fetching error: " ++ imgURL) (some (.plain cause))))]
        | .ok bytes => [.img (imgTag.setSrc img (dataURLOf ct bytes))]

/-- What one execution of the backoff fetcher's `operation` closure does:
request a retry (return a non-nil error — only the `StatusCode >= 500`
branch does), set `opErr` and return `nil`, or set `opImg` and return
`nil`. -/
inductive OpOut where
  | retryReq
  | failSet (e : GoErr)
  | successSet (t : imgTag)
deriving Repr, DecidableEq

/-- One execution of the backoff fetcher's `operation` closure
(imgparse.go lines 502-550) on the GET outcome of that attempt. -/
def backoffOperation (env : FetchEnv) (img : imgTag) (imgURL : String) : OpOut :=
  match env with
  | .error cause =>
    .failSet (.handler 500 ("can't fetch image: " ++ imgURL) (some (.plain cause)))
  | .ok resp =>
    if 500 ≤ resp.statusCode then .retryReq
    else if resp.statusCode ≠ 200 then
      .failSet (.handler 400
        ("expected status code 200 but found " ++ toString resp.statusCode ++
          " on image: " ++ imgURL ++ " )") none)
    else
      let ct := goTrimSpace resp.contentType
      if ct = "" then .failSet (.handler 400 ("no content-type on image: " ++ imgURL) none)
      else if strStartsWith ct "image" = false then
        .failSet (.handler 400 ("not image content-type on image: " ++ imgURL) none)
      else
        match resp.body with
        | .error cause =>
          .failSet (.handler 400 ("image fetching error: " ++ imgURL) (some (.plain cause)))
        | .ok bytes => .successSet (imgTag.setSrc img (dataURLOf ct bytes))

/-- `backoff.Retry(operation, backoff.NewExponentialBackOff())`: run the
operation once per available attempt; a retry request consumes the next
environment in `rest`, and when `rest` is exhausted the policy returns
`Stop` (the elapsed-time bound) and `Retry` surfaces the retry error.
Returns the final operation outcome and the number of attempts made. -/
def backoffAttempts (img : imgTag) (imgURL : String) : FetchEnv → List FetchEnv → OpOut × Nat
  | env, rest =>
    match backoffOperation env img imgURL with
    | .retryReq =>
      match rest with
      | [] => (.retryReq, 1)
      | env2 :: rest2 =>
        let p := backoffAttempts img imgURL env2 rest2
        (p.1, p.2 + 1)
    | out => (out, 1)

/-- Shallow embedding of `backoffImageFetcher.fetchImage` (imgparse.go
lines 495-564): the values the goroutine sends after `backoff.Retry`
returns.  The source sends `errc <- err` in both error branches — in the
`opErr != nil` branch `err` is `nil` — and `imgc <- img` (the argument, not
`opImg`) in the success branch. -/
def backoffFetchSends (img : imgTag) (imgURL : String) (env : FetchEnv)
    (rest : List FetchEnv) : List FetchSend :=
  match (backoffAttempts img imgURL env rest).1 with
  | .retryReq => [.err (some (.handler 500 "need retry" none))]
  | .failSet _ => [.err none]
  | .successSet _ => [.img img]

/-! ## Concrete inputs used by witnesses and counterexamples -/

/-- A scanned tag whose source is a remote reference. -/
def imgRemote : imgTag :=
  ⟨0, [⟨"src", "http://x/a.gif"⟩, ⟨"alt", "a"⟩]⟩

/-- A successful image response with body bytes `"GIF8"`. -/
def respOkGif : HTTPResp :=
  ⟨200, "image/gif", .ok [71, 73, 70, 56]⟩

/-- A non-retryable failing response (client error status). -/
def resp404 : HTTPResp :=
  ⟨404, "", .ok []⟩

/-- A retryable (server error) response. -/
def resp503 : HTTPResp :=
  ⟨503, "", .ok []⟩

/-- The folder URL used by concrete runs. -/
def folderDoc : GoURL :=
  ⟨"https", "x", "/doc", "", ""⟩

/-- A scanned tag that already carries an inline source. -/
def imgInline : imgTag :=
  ⟨0, [⟨"src", "data:image/gif;base64,AA=="⟩]⟩

/-- A second remote tag. -/
def imgRemoteB : imgTag :=
  ⟨0, [⟨"src", "b.gif"⟩]⟩

/-- Event trace for the coordinator witness: two dispatches, then a fetch
error while one task is still outstanding, then the completion the drain
must consume. -/
def evsAbort : List CoordEv :=
  [.img imgRemote, .img imgRemoteB, .fetchErr (some (.plain "boom")), .fetchRes imgRemoteB]

/-- The accounting invariant of the coordinator loop relative to its exit:
at a normal exit every dispatched task has completed; at an abort exit the
dispatched tasks exceed the completed ones by exactly the exit value of
`await`. -/
def loopCountsOk : LoopExit × Nat × Nat × List CoordEv → Prop
  | (.ok _, d, c, _) => d = c
  | (.fail _ aw, d, c, _) => d = c + aw
  | (.panicked aw, d, c, _) => d = c + aw


/-! ## Helper lemmas -/

theorem strData_append : ∀ (s t : String), (s ++ t).data = s.data ++ t.data
  | ⟨_⟩, ⟨_⟩ => rfl

theorem listIsPrefixOf_self_append : ∀ (l r : List Char), l.isPrefixOf (l ++ r) = true := by
  intro l r
  simp [List.isPrefixOf_iff_prefix]

theorem strStartsWith_append (p t : String) : strStartsWith (p ++ t) p = true := by
  unfold strStartsWith
  rw [strData_append]
  exact listIsPrefixOf_self_append p.data t.data

theorem setVal_get? :
    ∀ (l : List HTMLAttr) (n : Nat) (v : String), n < l.length →
      ∃ k, (setVal l n v).get? n = some ⟨k, v⟩ := by
  intro l
  induction l with
  | nil => intro n v h; simp at h
  | cons a as ih =>
    intro n v h
    cases n with
    | zero => exact ⟨a.key, rfl⟩
    | succ m =>
      obtain ⟨k, hk⟩ := ih m v (by simpa using h)
      exact ⟨k, by simpa [setVal] using hk⟩

theorem setSrc_src (img : imgTag) (s : String)
    (h : img.srcIndex.toNat < img.attr.length) : (imgTag.setSrc img s).src = s := by
  obtain ⟨k, hk⟩ := setVal_get? img.attr img.srcIndex.toNat s h
  simp only [List.get?_eq_getElem?] at hk
  simp [imgTag.setSrc, imgTag.src, hk]

theorem get?_append_middle :
    ∀ (l1 : List HTMLAttr) (a : HTMLAttr) (l2 : List HTMLAttr),
      (l1 ++ a :: l2).get? l1.length = some a := by
  intro l1 a l2
  induction l1 with
  | nil => rfl
  | cons b l ih => simpa using ih

theorem parseImgTokenLoop_noSrc :
    ∀ (l : List HTMLAttr) (si : Int) (acc : List HTMLAttr),
      (∀ b ∈ l, b.key ≠ "src") →
      parseImgTokenLoop l si acc =
        (si, acc ++ l.filter (fun b => supportedImgAttributes b.key)) := by
  intro l
  induction l with
  | nil => intro si acc _; simp [parseImgTokenLoop]
  | cons a rest ih =>
    intro si acc h
    have ha : a.key ≠ "src" := h a (by simp)
    have hrest : ∀ b ∈ rest, b.key ≠ "src" := fun b hb => h b (by simp [hb])
    have hbe : (a.key == "src") = false := by simpa using ha
    by_cases hs : supportedImgAttributes a.key = true
    · simp [parseImgTokenLoop, hs, hbe, ih _ _ hrest, List.filter_cons]
    · simp [parseImgTokenLoop, hs, ih _ _ hrest, List.filter_cons]

theorem parseImgToken_noSrc (attrs : List HTMLAttr)
    (h : ∀ b ∈ attrs, b.key ≠ "src") : parseImgToken attrs = .error noSrcErr := by
  simp [parseImgToken, parseImgTokenLoop_noSrc attrs (-1) [] h]

theorem parseImgTokenLoop_append :
    ∀ (l1 l2 : List HTMLAttr) (si : Int) (acc : List HTMLAttr),
      parseImgTokenLoop (l1 ++ l2) si acc =
        parseImgTokenLoop l2 (parseImgTokenLoop l1 si acc).1 (parseImgTokenLoop l1 si acc).2 := by
  intro l1
  induction l1 with
  | nil => intro l2 si acc; simp [parseImgTokenLoop]
  | cons a rest ih =>
    intro l2 si acc
    by_cases hs : supportedImgAttributes a.key = true
    · simp [parseImgTokenLoop, hs, ih]
    · simp [parseImgTokenLoop, hs, ih]

theorem parseImgTokenLoop_unique_src (pre post : List HTMLAttr) (a : HTMLAttr)
    (si : Int) (acc : List HTMLAttr) (ha : a.key = "src")
    (hpre : ∀ b ∈ pre, b.key ≠ "src") (hpost : ∀ b ∈ post, b.key ≠ "src") :
    parseImgTokenLoop (pre ++ a :: post) si acc =
      (Int.ofNat (acc ++ pre.filter (fun b => supportedImgAttributes b.key)).length,
        acc ++ (pre ++ a :: post).filter (fun b => supportedImgAttributes b.key)) := by
  have hsup : supportedImgAttributes a.key = true := by
    rw [ha]; decide
  have hbe : (a.key == "src") = true := by simp [ha]
  rw [parseImgTokenLoop_append, parseImgTokenLoop_noSrc pre si acc hpre]
  simp only [parseImgTokenLoop, hsup, if_pos, hbe, if_true]
  rw [parseImgTokenLoop_noSrc post _ _ hpost]
  simp [List.filter_append, List.filter_cons, hsup]

theorem drainLoop_length :
    ∀ (n : Nat) (evs rest2 : List CoordEv), drainLoop n evs = some rest2 →
      evs.length = n + rest2.length := by
  intro n
  induction n with
  | zero =>
    intro evs rest2 h
    simp [drainLoop] at h
    simp [h]
  | succ m ih =>
    intro evs rest2 h
    match evs with
    | [] => simp [drainLoop] at h
    | .img t :: r => simp [drainLoop] at h
    | .parseClosed :: r => simp [drainLoop] at h
    | .parseErr e :: r => simp [drainLoop] at h
    | .fetchRes t :: r =>
      simp only [drainLoop] at h
      have := ih r rest2 h
      simp [this]
      omega
    | .fetchErr e :: r =>
      simp only [drainLoop] at h
      have := ih r rest2 h
      simp [this]
      omega

theorem drainLoop_only_completions :
    ∀ (n : Nat) (evs rest2 : List CoordEv), drainLoop n evs = some rest2 →
      ∃ pre, evs = pre ++ rest2 ∧ pre.length = n ∧
        ∀ ev ∈ pre, (∃ t, ev = CoordEv.fetchRes t) ∨ (∃ e, ev = CoordEv.fetchErr e) := by
  intro n
  induction n with
  | zero =>
    intro evs rest2 h
    simp [drainLoop] at h
    exact ⟨[], by simp [h]⟩
  | succ m ih =>
    intro evs rest2 h
    match evs with
    | [] => simp [drainLoop] at h
    | .img t :: r => simp [drainLoop] at h
    | .parseClosed :: r => simp [drainLoop] at h
    | .parseErr e :: r => simp [drainLoop] at h
    | .fetchRes t :: r =>
      simp only [drainLoop] at h
      obtain ⟨pre, hpre, hlen, hall⟩ := ih r rest2 h
      refine ⟨.fetchRes t :: pre, by simp [hpre], by simp [hlen], ?_⟩
      intro ev hev
      rcases List.mem_cons.mp hev with rfl | hev2
      · exact .inl ⟨t, rfl⟩
      · exact hall ev hev2
    | .fetchErr e :: r =>
      simp only [drainLoop] at h
      obtain ⟨pre, hpre, hlen, hall⟩ := ih r rest2 h
      refine ⟨.fetchErr e :: pre, by simp [hpre], by simp [hlen], ?_⟩
      intro ev hev
      rcases List.mem_cons.mp hev with rfl | hev2
      · exact .inr ⟨e, rfl⟩
      · exact hall ev hev2

theorem coordLoop_counts :
    ∀ (evs : List CoordEv) (f : GoURL) (po : Bool) (aw : Nat) (res : List imgTag)
      (d c : Nat) (out : LoopExit × Nat × Nat × List CoordEv),
      coordLoop f po aw res d c evs = some out → d = c + aw → loopCountsOk out := by
  intro evs
  induction evs with
  | nil =>
    intro f po aw res d c out h hdc
    cases po with
    | false =>
      cases aw with
      | zero =>
        simp only [coordLoop] at h
        cases h
        simpa [loopCountsOk] using hdc
      | succ n => simp [coordLoop] at h
    | true => simp [coordLoop] at h
  | cons ev rest ih =>
    intro f po aw res d c out h hdc
    cases po with
    | false =>
      cases aw with
      | zero =>
        simp only [coordLoop] at h
        cases h
        simpa [loopCountsOk] using hdc
      | succ n =>
        cases ev with
        | img t => simp [coordLoop] at h
        | parseClosed => simp [coordLoop] at h
        | parseErr e => simp [coordLoop] at h
        | fetchRes t =>
          simp only [coordLoop] at h
          exact ih f false n (res ++ [t]) d (c + 1) out h (by omega)
        | fetchErr e =>
          simp only [coordLoop] at h
          cases h
          simp only [loopCountsOk]
          omega
    | true =>
      cases ev with
      | img t =>
        simp only [coordLoop, if_pos] at h
        by_cases hd : t.isDataURL = true
        · rw [if_pos hd] at h
          exact ih f true aw (res ++ [t]) d c out h hdc
        · rw [if_neg hd] at h
          cases hg : getImgURL t.src f with
          | ok u =>
            rw [hg] at h
            exact ih f true (aw + 1) res (d + 1) c out h (by omega)
          | err e =>
            rw [hg] at h
            cases h
            simp only [loopCountsOk]
            omega
          | panicked =>
            rw [hg] at h
            cases h
            simp only [loopCountsOk]
            omega
      | parseClosed =>
        simp only [coordLoop, if_pos] at h
        exact ih f false aw res d c out h hdc
      | parseErr e =>
        simp only [coordLoop, if_pos] at h
        cases h
        simp only [loopCountsOk]
        omega
      | fetchRes t =>
        cases aw with
        | zero => simp [coordLoop] at h
        | succ n =>
          simp only [coordLoop] at h
          exact ih f true n (res ++ [t]) d (c + 1) out h (by omega)
      | fetchErr e =>
        cases aw with
        | zero => simp [coordLoop] at h
        | succ n =>
          simp only [coordLoop] at h
          cases h
          simp only [loopCountsOk]
          omega

/-! ## Claim theorems -/

/-- C1: whenever an `extractImages` run aborts with an error (scan error,
URL-resolution error or fetch error), the deferred function first cancels the
shared context and then drains exactly `await`-at-abort further completions
from the fetch channels, so that when the run returns every dispatched fetch
task has delivered its one completion (no worker is left blocked). -/
theorem extractImages_abort_drains_outstanding :
    ∀ (folderURL : GoURL) (evs : List CoordEv) (r : RunOut) (e : Option GoErr),
      extractImagesRun folderURL evs = some r → r.outcome = .fail e →
      r.cancelled = true ∧ r.drained = r.awaitAtExit ∧ r.dispatched = r.completed := by
  intro folderURL evs r e hrun hout
  unfold extractImagesRun at hrun
  cases hcl : coordLoop folderURL true 0 [] 0 0 evs with
  | none => rw [hcl] at hrun; cases hrun
  | some out =>
    rw [hcl] at hrun
    obtain ⟨ex, d, c, rest⟩ := out
    have hcnt := coordLoop_counts evs folderURL true 0 [] 0 0 (ex, d, c, rest) hcl (by omega)
    cases ex with
    | ok resl =>
      simp only at hrun
      cases hrun
      simp at hout
    | fail e2 aw =>
      simp only at hrun
      cases hdr : drainLoop aw rest with
      | none => rw [hdr] at hrun; cases hrun
      | some rest2 =>
        rw [hdr] at hrun
        cases hrun
        have hlen := drainLoop_length aw rest rest2 hdr
        simp only [loopCountsOk] at hcnt
        refine ⟨rfl, by simp; omega, by simp; omega⟩
    | panicked aw =>
      simp only at hrun
      cases hdr : drainLoop aw rest with
      | none => rw [hdr] at hrun; cases hrun
      | some rest2 =>
        rw [hdr] at hrun
        cases hrun
        simp at hout

/-- Witness for C1: a concrete run with two dispatched fetches aborting on a
fetch error with one task still outstanding. -/
theorem extractImages_abort_drains_outstanding_witness :
    ∃ r : RunOut, extractImagesRun folderDoc evsAbort = some r ∧
      r.outcome = .fail (some (.plain "boom")) ∧
      r.cancelled = true ∧ r.drained = r.awaitAtExit ∧ r.dispatched = r.completed := by
  refine ⟨⟨.fail (some (.plain "boom")), true, 1, 1, 2, 2, []⟩, by decide, rfl, ?_⟩
  exact extractImages_abort_drains_outstanding folderDoc evsAbort
    ⟨.fail (some (.plain "boom")), true, 1, 1, 2, 2, []⟩ (some (.plain "boom"))
    (by decide) rfl

/-- C6: when the coordinator receives a scanned tag whose source is already
an inline `data:` value, it appends the tag to the result and continues the
loop in the same state: no URL resolution, no dispatch (`d` unchanged) and no
increment of `await`. -/
theorem coordLoop_inline_accept :
    ∀ (f : GoURL) (aw : Nat) (res : List imgTag) (d c : Nat) (t : imgTag)
      (evs : List CoordEv),
      t.isDataURL = true →
      coordLoop f true aw res d c (.img t :: evs) =
        coordLoop f true aw (res ++ [t]) d c evs := by
  intro f aw res d c t evs h
  simp [coordLoop, h]

/-- Witness for C6: a concrete inline tag is accepted directly. -/
theorem coordLoop_inline_accept_witness :
    coordLoop folderDoc true 0 [] 0 0 [.img imgInline, .parseClosed] =
      coordLoop folderDoc true 0 [imgInline] 0 0 [.parseClosed] :=
  coordLoop_inline_accept folderDoc 0 [] 0 0 imgInline [.parseClosed] (by decide)

/-- C2: for every dispatched fetch task, both the plain fetcher and the
backoff fetcher send exactly one value to their caller — one tag on the
result channel or one error on the error channel, never both, never neither
(the transport-error environment also covers cancellation); and every tag the
plain fetcher sends on the result channel is the rewritten inline form. -/
theorem fetcher_exactly_one_send :
    ∀ (env : FetchEnv) (img : imgTag) (imgURL : String) (rest : List FetchEnv),
      (fetchImageSends env img imgURL).length = 1 ∧
      (backoffFetchSends img imgURL env rest).length = 1 ∧
      (img.srcIndex.toNat < img.attr.length →
        ∀ t, FetchSend.img t ∈ fetchImageSends env img imgURL →
          t.isDataURL = true) := by
  intro env img imgURL rest
  refine ⟨?_, ?_, ?_⟩
  · unfold fetchImageSends
    cases env with
    | error cause => simp
    | ok resp =>
      by_cases h2 : resp.statusCode ≠ 200
      · simp [h2]
      · simp only [h2, if_false]
        by_cases hct : goTrimSpace resp.contentType = ""
        · simp [hct]
        · simp only [hct, if_false]
          by_cases hi : strStartsWith (goTrimSpace resp.contentType) "image" = false
          · simp [hi]
          · simp only [hi, if_false]
            cases resp.body with
            | error cause => simp
            | ok bytes => simp
  · unfold backoffFetchSends
    cases (backoffAttempts img imgURL env rest).1 with
    | retryReq => simp
    | failSet e => simp
    | successSet t => simp
  · intro hlt t ht
    unfold fetchImageSends at ht
    cases env with
    | error cause => simp at ht
    | ok resp =>
      obtain ⟨code, ct, body⟩ := resp
      by_cases h2 : code ≠ 200
      · simp [h2] at ht
      · simp only [h2, if_false] at ht
        by_cases hct : goTrimSpace ct = ""
        · simp [hct] at ht
        · simp only [hct, if_false] at ht
          by_cases hi : strStartsWith (goTrimSpace ct) "image" = false
          · simp [hi] at ht
          · rw [if_neg hi] at ht
            cases body with
            | error cause => simp at ht
            | ok bytes =>
              simp only [List.mem_singleton, FetchSend.img.injEq] at ht
              subst ht
              unfold imgTag.isDataURL
              rw [setSrc_src img _ hlt]
              exact strStartsWith_append "data:" _

/-- Witness for C2: the concrete successful fetch rewrites the tag into the
inline form (the payload is what the buffer holds when it is read: the body
`"GIF8"` minus the final partial block still sitting in the encoder). -/
theorem fetcher_exactly_one_send_witness :
    imgTag.isDataURL (imgTag.setSrc imgRemote "data:image/gif;base64,R0lG") = true :=
  (fetcher_exactly_one_send (.ok respOkGif) imgRemote "http://x/a.gif" []).2.2
    (by decide) _ (by decide)

/-- C3 (code bug): on a fully successful fetch the backoff fetcher computes
the rewritten inline copy (`opImg`, whose source is the `data:` value the
buffer holds when it is read) but the value it sends on the result channel
is the original tag `img` with its remote source, not the rewritten copy. -/
theorem backoffFetch_success_sends_original :
    backoffFetchSends imgRemote "http://x/a.gif" (.ok respOkGif) [] = [.img imgRemote] ∧
    (backoffAttempts imgRemote "http://x/a.gif" (.ok respOkGif) []).1 =
      .successSet (imgTag.setSrc imgRemote "data:image/gif;base64,R0lG") ∧
    imgTag.isDataURL imgRemote = false ∧
    imgTag.isDataURL (imgTag.setSrc imgRemote "data:image/gif;base64,R0lG") = true :=
  ⟨by decide, by decide, by decide, by decide⟩

/-- C4 (code bug): on a non-retryable failure (here a 404) the backoff
fetcher makes exactly one attempt — even with retry budget left — and
records the coded failure in `opErr`, but the value it sends on the error
channel is the `nil` result of `backoff.Retry`, not that failure; retries
are requested exactly for transport-successful responses with a 5xx
status. -/
theorem backoffFetch_nonretryable_sends_nil :
    backoffFetchSends imgRemote "http://x/a.gif" (.ok resp404) [.ok respOkGif] = [.err none] ∧
    (backoffAttempts imgRemote "http://x/a.gif" (.ok resp404) [.ok respOkGif]).2 = 1 ∧
    (backoffAttempts imgRemote "http://x/a.gif" (.ok resp404) [.ok respOkGif]).1 =
      .failSet (.handler 400 "expected status code 200 but found 404 on image: http://x/a.gif )" none) ∧
    (∀ (env : FetchEnv) (img : imgTag) (u : String),
      backoffOperation env img u = .retryReq ↔
        ∃ resp, env = .ok resp ∧ 500 ≤ resp.statusCode) := by
  refine ⟨by decide, by decide, by decide, ?_⟩
  intro env img u
  cases env with
  | error cause => simp [backoffOperation]
  | ok resp =>
    by_cases h5 : 500 ≤ resp.statusCode
    · simp [backoffOperation, h5]
    · simp only [backoffOperation, h5, if_false]
      constructor
      · intro h
        exfalso
        by_cases h2 : resp.statusCode ≠ 200
        · simp [h2] at h
        · simp only [h2, if_false] at h
          by_cases hct : goTrimSpace resp.contentType = ""
          · simp [hct] at h
          · simp only [hct, if_false] at h
            by_cases hi : strStartsWith (goTrimSpace resp.contentType) "image" = false
            · simp [hi] at h
            · rw [if_neg hi] at h
              cases hb : resp.body with
              | error cause => rw [hb] at h; simp at h
              | ok bytes => rw [hb] at h; simp at h
      · rintro ⟨resp2, hr, h5x⟩
        cases hr
        omega

/-- C5: `parseImgToken` either fails with the client error (exactly when the
token has no `src` attribute) or returns a tag whose attribute list is the
token's attributes restricted to the allow-set in original order, and whose
cached source index is the position of the `src` attribute within that
retained list — valid even when unsupported attributes precede `src` — so
that `src()` reads the `src` attribute's value. -/
theorem parseImgToken_allowset_srcIndex :
    ∀ (attrs pre post : List HTMLAttr) (a : HTMLAttr),
      ((∀ b ∈ attrs, b.key ≠ "src") → parseImgToken attrs = .error noSrcErr) ∧
      (attrs = pre ++ a :: post → a.key = "src" →
        (∀ b ∈ pre, b.key ≠ "src") → (∀ b ∈ post, b.key ≠ "src") →
        ∃ img, parseImgToken attrs = .ok img ∧
          img.attr = attrs.filter (fun b => supportedImgAttributes b.key) ∧
          img.srcIndex =
            Int.ofNat ((pre.filter (fun b => supportedImgAttributes b.key)).length) ∧
          img.src = a.val) := by
  intro attrs pre post a
  constructor
  · exact parseImgToken_noSrc attrs
  · intro hsplit ha hpre hpost
    subst hsplit
    have hloop := parseImgTokenLoop_unique_src pre post a (-1) [] ha hpre hpost
    have hsup : supportedImgAttributes a.key = true := by rw [ha]; decide
    refine ⟨⟨Int.ofNat ((pre.filter (fun b => supportedImgAttributes b.key)).length),
      (pre ++ a :: post).filter (fun b => supportedImgAttributes b.key)⟩, ?_, rfl, rfl, ?_⟩
    · unfold parseImgToken
      rw [hloop]
      simp
    · unfold imgTag.src
      have h1 : (Int.ofNat ((pre.filter (fun b => supportedImgAttributes b.key)).length)).toNat
          = (pre.filter (fun b => supportedImgAttributes b.key)).length := rfl
      simp only [List.filter_append, List.filter_cons, hsup, if_pos, h1]
      rw [get?_append_middle]
      rfl

/-- Witness for C5: a token without `src` is rejected, and a token with an
unsupported attribute before `src` yields the retained list with the cached
index pointing at `src` within it. -/
theorem parseImgToken_allowset_srcIndex_witness :
    parseImgToken [⟨"alt", "a"⟩] = .error noSrcErr ∧
    (∃ img, parseImgToken [⟨"id", "z"⟩, ⟨"src", "u"⟩, ⟨"alt", "a"⟩] = .ok img ∧
      img.attr = ([⟨"id", "z"⟩, ⟨"src", "u"⟩, ⟨"alt", "a"⟩] : List HTMLAttr).filter
        (fun b => supportedImgAttributes b.key) ∧
      img.srcIndex = Int.ofNat ((([⟨"id", "z"⟩] : List HTMLAttr).filter
        (fun b => supportedImgAttributes b.key)).length) ∧
      img.src = "u") :=
  ⟨(parseImgToken_allowset_srcIndex [⟨"alt", "a"⟩] [] [] ⟨"", ""⟩).1 (by decide),
   (parseImgToken_allowset_srcIndex [⟨"id", "z"⟩, ⟨"src", "u"⟩, ⟨"alt", "a"⟩]
      [⟨"id", "z"⟩] [⟨"alt", "a"⟩] ⟨"src", "u"⟩).2 rfl rfl (by decide) (by decide)⟩

theorem parseImageRun_shape :
    ∀ (toks : List HTMLTok) (ms : List ChanMsg), parseImageRun toks = some ms →
      (∃ tags : List imgTag, ms = tags.map ChanMsg.img ++ [ChanMsg.closed]) ∨
      (∃ (tags : List imgTag) (e : GoErr),
        ms = tags.map ChanMsg.img ++ [ChanMsg.err (some e), ChanMsg.closed]) := by
  intro toks
  induction toks with
  | nil => intro ms h; simp [parseImageRun] at h
  | cons tok rest ih =>
    intro ms h
    cases tok with
    | eofTok =>
      simp only [parseImageRun] at h
      cases h
      exact .inl ⟨[], rfl⟩
    | scanErr m =>
      simp only [parseImageRun] at h
      cases h
      exact .inr ⟨[], .plain m, rfl⟩
    | otherTok => exact ih ms (by simpa [parseImageRun] using h)
    | startTag isImg dat attrs =>
      by_cases hc : isImg = true ∧ dat = "img"
      · rw [parseImageRun, if_pos hc] at h
        cases hp : parseImgToken attrs with
        | error e =>
          rw [hp] at h
          cases h
          exact .inr ⟨[], e, rfl⟩
        | ok t =>
          rw [hp] at h
          cases hr : parseImageRun rest with
          | none => rw [hr] at h; cases h
          | some ms2 =>
            rw [hr] at h
            simp only [Option.map_some', Option.some.injEq] at h
            subst h
            rcases ih ms2 hr with ⟨tags, htags⟩ | ⟨tags, e, htags⟩
            · exact .inl ⟨t :: tags, by simp [htags]⟩
            · exact .inr ⟨t :: tags, e, by simp [htags]⟩
      · rw [parseImageRun, if_neg hc] at h
        exact ih ms h
    | selfClosingTag isImg dat attrs =>
      by_cases hc : isImg = true ∧ dat = "img"
      · rw [parseImageRun, if_pos hc] at h
        cases hp : parseImgToken attrs with
        | error e =>
          rw [hp] at h
          cases h
          exact .inr ⟨[], e, rfl⟩
        | ok t =>
          rw [hp] at h
          cases hr : parseImageRun rest with
          | none => rw [hr] at h; cases h
          | some ms2 =>
            rw [hr] at h
            simp only [Option.map_some', Option.some.injEq] at h
            subst h
            rcases ih ms2 hr with ⟨tags, htags⟩ | ⟨tags, e, htags⟩
            · exact .inl ⟨t :: tags, by simp [htags]⟩
            · exact .inr ⟨t :: tags, e, by simp [htags]⟩
      · rw [parseImageRun, if_neg hc] at h
        exact ih ms h

theorem parseImageRun_clean_lead :
    ∀ (pre : List HTMLTok) (tags : List imgTag) (tail : List HTMLTok),
      scanOk pre = some tags →
      parseImageRun (pre ++ tail) =
        (parseImageRun tail).map (fun ms => tags.map ChanMsg.img ++ ms) := by
  intro pre
  induction pre with
  | nil =>
    intro tags tail h
    simp [scanOk] at h
    subst h
    simp
  | cons tok rest ih =>
    intro tags tail h
    cases tok with
    | eofTok => simp [scanOk] at h
    | scanErr m => simp [scanOk] at h
    | otherTok =>
      simp only [scanOk] at h
      simpa [parseImageRun] using ih tags tail h
    | startTag isImg dat attrs =>
      by_cases hc : isImg = true ∧ dat = "img"
      · rw [scanOk, if_pos hc] at h
        cases hp : parseImgToken attrs with
        | error e => rw [hp] at h; cases h
        | ok t =>
          rw [hp] at h
          cases hs : scanOk rest with
          | none => rw [hs] at h; cases h
          | some ts2 =>
            rw [hs] at h
            simp only [Option.map_some', Option.some.injEq] at h
            subst h
            rw [List.cons_append, parseImageRun, if_pos hc, hp, ih ts2 tail hs]
            cases hmt : parseImageRun tail <;> simp [hmt]
      · rw [scanOk, if_neg hc] at h
        rw [List.cons_append, parseImageRun, if_neg hc]
        exact ih tags tail h
    | selfClosingTag isImg dat attrs =>
      by_cases hc : isImg = true ∧ dat = "img"
      · rw [scanOk, if_pos hc] at h
        cases hp : parseImgToken attrs with
        | error e => rw [hp] at h; cases h
        | ok t =>
          rw [hp] at h
          cases hs : scanOk rest with
          | none => rw [hs] at h; cases h
          | some ts2 =>
            rw [hs] at h
            simp only [Option.map_some', Option.some.injEq] at h
            subst h
            rw [List.cons_append, parseImageRun, if_pos hc, hp, ih ts2 tail hs]
            cases hmt : parseImageRun tail <;> simp [hmt]
      · rw [scanOk, if_neg hc] at h
        rw [List.cons_append, parseImageRun, if_neg hc]
        exact ih tags tail h

/-- C7: the scanner's output always consists of the scanned tags followed by
at most one (non-nil) error and then the close of the image channel, so an
error is delivered before the termination signal and no tag follows it; an
image element with no source attribute makes the scan deliver the client
error and close, producing no further tags; and a clean scan ending at end
of input closes the channel without ever sending an error, so termination
without an observed error means a fully successful scan. -/
theorem parseImage_error_before_close :
    (∀ (toks : List HTMLTok) (ms : List ChanMsg), parseImageRun toks = some ms →
      (∃ tags : List imgTag, ms = tags.map ChanMsg.img ++ [ChanMsg.closed]) ∨
      (∃ (tags : List imgTag) (e : GoErr),
        ms = tags.map ChanMsg.img ++ [ChanMsg.err (some e), ChanMsg.closed])) ∧
    (∀ (pre : List HTMLTok) (tags : List imgTag) (attrs : List HTMLAttr)
        (rest : List HTMLTok),
      scanOk pre = some tags → (∀ b ∈ attrs, b.key ≠ "src") →
      parseImageRun (pre ++ .startTag true "img" attrs :: rest) =
        some (tags.map ChanMsg.img ++ [ChanMsg.err (some noSrcErr), ChanMsg.closed])) ∧
    (∀ (pre : List HTMLTok) (tags : List imgTag),
      scanOk pre = some tags →
      parseImageRun (pre ++ [.eofTok]) = some (tags.map ChanMsg.img ++ [ChanMsg.closed])) := by
  refine ⟨parseImageRun_shape, ?_, ?_⟩
  · intro pre tags attrs rest hpre hnosrc
    rw [parseImageRun_clean_lead pre tags _ hpre]
    rw [parseImageRun, if_pos ⟨rfl, rfl⟩, parseImgToken_noSrc attrs hnosrc]
    rfl
  · intro pre tags hpre
    rw [parseImageRun_clean_lead pre tags _ hpre]
    rfl

/-- Witness for C7: a concrete clean prefix followed by an `img` element
with no `src` yields the client error right before the close; the same
prefix followed by end of input closes with no error. -/
theorem parseImage_error_before_close_witness :
    parseImageRun [.selfClosingTag true "img" [⟨"src", "u"⟩], .startTag true "img" [⟨"alt", "a"⟩], .otherTok] =
      some [.img ⟨0, [⟨"src", "u"⟩]⟩, .err (some noSrcErr), .closed] ∧
    parseImageRun [.selfClosingTag true "img" [⟨"src", "u"⟩], .eofTok] =
      some [.img ⟨0, [⟨"src", "u"⟩]⟩, .closed] :=
  ⟨parseImage_error_before_close.2.1 [.selfClosingTag true "img" [⟨"src", "u"⟩]]
      [⟨0, [⟨"src", "u"⟩]⟩] [⟨"alt", "a"⟩] [.otherTok] (by decide) (by decide),
   parseImage_error_before_close.2.2 [.selfClosingTag true "img" [⟨"src", "u"⟩]]
      [⟨0, [⟨"src", "u"⟩]⟩] (by decide)⟩

/-- C8: `getFolderURL` clears query and fragment, trims the trailing path
separator and drops the final path segment, so both
`https://x/doc/articles/` and `https://x/doc/articles` yield
`https://x/doc`; and whenever the trimmed path contains no separator the
folder is the origin with empty path. -/
theorem getFolderURL_drops_last_segment :
    urlString (getFolderURL ⟨"https", "x", "/doc/articles/", "", ""⟩) = "https://x/doc" ∧
    urlString (getFolderURL ⟨"https", "x", "/doc/articles", "", ""⟩) = "https://x/doc" ∧
    (∀ u : GoURL, (goTrim u.path '/').data.contains '/' = false →
      getFolderURL u = { u with path := "", rawQuery := "", fragment := "" }) := by
  refine ⟨by decide, by decide, ?_⟩
  intro u h
  unfold getFolderURL
  simp only [h]
  simp

/-- Witness for C8: a page URL whose path has a single segment resolves to
the origin with empty path (query and fragment cleared). -/
theorem getFolderURL_drops_last_segment_witness :
    getFolderURL ⟨"https", "x", "/doc", "q", "frag"⟩ = ⟨"https", "x", "", "", ""⟩ :=
  getFolderURL_drops_last_segment.2.2 ⟨"https", "x", "/doc", "q", "frag"⟩ (by decide)

/-- C9 counterexample: for a root-relative reference the code replaces the
folder's whole path instead of joining, so
`getImgURL "/images/html5.gif" (https://x/doc)` returns
`https://x/images/html5.gif`, not the `https://x/doc/images/html5.gif` the
claim requires. -/
theorem getImgURL_root_relative_counterexample :
    getImgURL "/images/html5.gif" ⟨"https", "x", "/doc", "", ""⟩ =
      .ok "https://x/images/html5.gif" ∧
    "https://x/images/html5.gif" ≠ "https://x/doc/images/html5.gif" :=
  ⟨by decide, by decide⟩

/-- C9 amended: a fully-qualified reference is returned unchanged; a plain
relative reference is joined to the folder URL with exactly one separator,
whether or not the folder's path already ends in one; a root-relative
reference (leading `/`) replaces the folder URL's path, dropping existing
path segments. -/
theorem getImgURL_resolution_cases :
    getImgURL "https://x/doc/images/html5.gif" ⟨"https", "x", "/doc", "", ""⟩ =
      .ok "https://x/doc/images/html5.gif" ∧
    getImgURL "html5.gif" ⟨"https", "x", "/doc/articles", "", ""⟩ =
      .ok "https://x/doc/articles/html5.gif" ∧
    getImgURL "html5.gif" ⟨"https", "x", "/doc/articles/", "", ""⟩ =
      .ok "https://x/doc/articles/html5.gif" ∧
    getImgURL "/images/html5.gif" ⟨"https", "x", "/doc", "", ""⟩ =
      .ok "https://x/images/html5.gif" ∧
    getImgURL "/images/html5.gif" ⟨"https", "x", "/doc/", "", ""⟩ =
      .ok "https://x/images/html5.gif" :=
  ⟨by decide, by decide, by decide, by decide, by decide⟩

/-- C10 counterexample: on the empty source reference — as produced by an
element like `<img src="">`, which `parseImgToken` accepts — `getImgURL`
reads `src[0]` out of bounds: the Go code panics instead of returning a
result or an error. -/
theorem getImgURL_empty_src_counterexample :
    parseImgToken [⟨"src", ""⟩] = .ok ⟨0, [⟨"src", ""⟩]⟩ ∧
    imgTag.isDataURL ⟨0, [⟨"src", ""⟩]⟩ = false ∧
    getImgURL "" ⟨"https", "x", "/doc", "", ""⟩ = .panicked :=
  ⟨by decide, by decide, by decide⟩

theorem trimCharRight_ne_nil (l : List Char) (hne : l ≠ [])
    (hhead : l.head? ≠ some '/') : trimCharRight '/' l ≠ [] := by
  intro h
  unfold trimCharRight at h
  rw [List.reverse_eq_nil_iff] at h
  have hall := List.dropWhile_eq_nil_iff.mp h
  match l, hne with
  | c :: cs, _ =>
    have hc : (c == '/') = true := hall c (by simp)
    simp at hc
    exact hhead (by simp [hc])

theorem checkValid_ok_or_client_err (r : String) :
    (∃ s, checkValid r = .ok s) ∨
    (∃ d cause, checkValid r = .err (.handler 400 d cause)) := by
  unfold checkValid
  by_cases h : govalidatorIsURL r = true
  · exact .inl ⟨r, by simp [h]⟩
  · exact .inr ⟨"invalid img tag src URL: is not valid URL", none, by simp [h]⟩

theorem strData_ne_nil : ∀ (s : String), s ≠ "" → s.data ≠ []
  | ⟨[]⟩, h => fun _ => h rfl
  | ⟨c :: cs⟩, _ => fun hd => by simp at hd

/-- C10 amended: for every nonempty source reference, and any folder URL
that renders to a nonempty string not beginning with a path separator (true
of every folder URL the pipeline derives from an absolute page URL),
`getImgURL` is total: it never reaches an out-of-bounds string index, and it
returns either a resolved URL or a client-classified (400) error.  The
totality claim fails for the empty reference, where the code reads `src[0]`
out of bounds (see the counterexample). -/
theorem getImgURL_total_on_nonempty_src :
    ∀ (src : String) (folderURL : GoURL),
      src ≠ "" →
      (urlString folderURL).data ≠ [] →
      (urlString folderURL).data.head? ≠ some '/' →
      getImgURL src folderURL ≠ GoRes.panicked ∧
      ((∃ res, getImgURL src folderURL = .ok res) ∨
       (∃ d cause, getImgURL src folderURL = .err (.handler 400 d cause))) := by
  intro src folderURL hsrc hfne hfhead
  have main : (∃ res, getImgURL src folderURL = .ok res) ∨
      (∃ d cause, getImgURL src folderURL = .err (.handler 400 d cause)) := by
    unfold getImgURL
    cases hp : urlParse src with
    | error cause =>
      exact .inr ⟨"invalid img tag src URL: url parse", some (.plain cause), rfl⟩
    | ok u =>
      dsimp only
      by_cases habs : u.isAbs = true
      · rw [if_pos habs]
        exact checkValid_ok_or_client_err src
      · rw [if_neg habs]
        by_cases hss : strStartsWith src "//" = true
        · rw [if_pos hss]
          exact checkValid_ok_or_client_err ("http:" ++ src)
        · rw [if_neg hss]
          obtain ⟨c, cs, hsd⟩ : ∃ c cs, src.data = c :: cs := by
            cases hs2 : src.data with
            | nil => exact absurd hs2 (strData_ne_nil src hsrc)
            | cons c cs => exact ⟨c, cs, rfl⟩
          rw [hsd]
          dsimp only
          by_cases hc : (c == '/') = true
          · rw [if_pos hc]
            exact checkValid_ok_or_client_err _
          · rw [if_neg hc]
            have hfs : (goTrimRight (urlString folderURL) '/').data ≠ [] :=
              trimCharRight_ne_nil (urlString folderURL).data hfne hfhead
            cases hl : (goTrimRight (urlString folderURL) '/').data.getLast? with
            | none => exact absurd (List.getLast?_eq_none_iff.mp hl) hfs
            | some lc =>
              simp only [hl]
              by_cases hlc : (lc == '/') = true
              · rw [if_pos hlc]
                exact checkValid_ok_or_client_err _
              · rw [if_neg hlc]
                exact checkValid_ok_or_client_err _
  refine ⟨?_, main⟩
  rcases main with ⟨s, hs⟩ | ⟨d, cause, hd⟩
  · rw [hs]; intro hcontra; cases hcontra
  · rw [hd]; intro hcontra; cases hcontra

/-- Witness for C10 amended: a concrete nonempty relative reference
resolves without panic. -/
theorem getImgURL_total_on_nonempty_src_witness :
    getImgURL "a.gif" folderDoc ≠ GoRes.panicked ∧
    ((∃ res, getImgURL "a.gif" folderDoc = .ok res) ∨
     (∃ d cause, getImgURL "a.gif" folderDoc = .err (.handler 400 d cause))) :=
  getImgURL_total_on_nonempty_src "a.gif" folderDoc (by decide) (by decide) (by decide)
